import Mathlib

/-!
Verification of the data-collection script `Data_Generator.py` of the
SpotifyRecommendationEngine repository.

The script is a sequential pandas/numpy ETL pipeline.  We give a shallow
embedding of the parts the specification talks about:

* Python/JSON values (`PyVal`) with Python's subscript semantics
  (`pySubscript`, `pyIndex0`): a missing dictionary key raises `KeyError`,
  subscripting `None` (or a list/str/int with a string key) raises
  `TypeError`, indexing an empty sequence raises `IndexError`.
* `numpy.array` dtype coercion on a batch of extracted records (`npArray`):
  a batch holding only strings and integers with at least one string is
  promoted to a string array (every element stringified); a batch holding
  any other value (for example `None`) falls back to object dtype and is
  kept unchanged.
* the extraction function `get_tracks_from_playlist` with its
  `try/except TypeError` per-item recovery,
* a small dataframe model (`DataFrame`) with the pandas operations used by
  the script: column access, `drop_duplicates` (keep the first occurrence
  of each fully-identical row), building a frame from a list of dicts,
  `drop(columns=...)`, `rename`, and a left `merge` on one key,
* `generate_features` and `add_genres`, each taking the external lookup as
  an explicit oracle function, so theorems quantify over every possible
  outcome of the per-identifier lookups.

External lookups are modelled as oracle parameters; everything else is
translated from the source line by line.
-/

/-- A Python/JSON value as the script manipulates them: strings, integers,
`None`, lists and string-keyed dicts. -/
inductive PyVal where
  | str (s : String)
  | int (n : Int)
  | none
  | list (xs : List PyVal)
  | dict (kvs : List (String × PyVal))
deriving Repr

mutual

/-- Decidable equality on `PyVal` (Python `==` on these values). -/
def PyVal.decEq : (a b : PyVal) → Decidable (a = b)
  | PyVal.str a, PyVal.str b =>
    if h : a = b then isTrue (congrArg PyVal.str h)
    else isFalse (fun hh => h (PyVal.str.inj hh))
  | PyVal.int a, PyVal.int b =>
    if h : a = b then isTrue (congrArg PyVal.int h)
    else isFalse (fun hh => h (PyVal.int.inj hh))
  | PyVal.none, PyVal.none => isTrue rfl
  | PyVal.list xs, PyVal.list ys =>
    match PyVal.decEqList xs ys with
    | isTrue h => isTrue (congrArg PyVal.list h)
    | isFalse h => isFalse (fun hh => h (PyVal.list.inj hh))
  | PyVal.dict xs, PyVal.dict ys =>
    match PyVal.decEqDict xs ys with
    | isTrue h => isTrue (congrArg PyVal.dict h)
    | isFalse h => isFalse (fun hh => h (PyVal.dict.inj hh))
  | PyVal.str _, PyVal.int _ => isFalse (fun hh => PyVal.noConfusion hh)
  | PyVal.str _, PyVal.none => isFalse (fun hh => PyVal.noConfusion hh)
  | PyVal.str _, PyVal.list _ => isFalse (fun hh => PyVal.noConfusion hh)
  | PyVal.str _, PyVal.dict _ => isFalse (fun hh => PyVal.noConfusion hh)
  | PyVal.int _, PyVal.str _ => isFalse (fun hh => PyVal.noConfusion hh)
  | PyVal.int _, PyVal.none => isFalse (fun hh => PyVal.noConfusion hh)
  | PyVal.int _, PyVal.list _ => isFalse (fun hh => PyVal.noConfusion hh)
  | PyVal.int _, PyVal.dict _ => isFalse (fun hh => PyVal.noConfusion hh)
  | PyVal.none, PyVal.str _ => isFalse (fun hh => PyVal.noConfusion hh)
  | PyVal.none, PyVal.int _ => isFalse (fun hh => PyVal.noConfusion hh)
  | PyVal.none, PyVal.list _ => isFalse (fun hh => PyVal.noConfusion hh)
  | PyVal.none, PyVal.dict _ => isFalse (fun hh => PyVal.noConfusion hh)
  | PyVal.list _, PyVal.str _ => isFalse (fun hh => PyVal.noConfusion hh)
  | PyVal.list _, PyVal.int _ => isFalse (fun hh => PyVal.noConfusion hh)
  | PyVal.list _, PyVal.none => isFalse (fun hh => PyVal.noConfusion hh)
  | PyVal.list _, PyVal.dict _ => isFalse (fun hh => PyVal.noConfusion hh)
  | PyVal.dict _, PyVal.str _ => isFalse (fun hh => PyVal.noConfusion hh)
  | PyVal.dict _, PyVal.int _ => isFalse (fun hh => PyVal.noConfusion hh)
  | PyVal.dict _, PyVal.none => isFalse (fun hh => PyVal.noConfusion hh)
  | PyVal.dict _, PyVal.list _ => isFalse (fun hh => PyVal.noConfusion hh)

/-- Decidable equality on lists of `PyVal`. -/
def PyVal.decEqList : (xs ys : List PyVal) → Decidable (xs = ys)
  | [], [] => isTrue rfl
  | [], _ :: _ => isFalse (fun hh => List.noConfusion hh)
  | _ :: _, [] => isFalse (fun hh => List.noConfusion hh)
  | x :: xs, y :: ys =>
    match PyVal.decEq x y with
    | isTrue h1 =>
      match PyVal.decEqList xs ys with
      | isTrue h2 => isTrue (by rw [h1, h2])
      | isFalse h2 => isFalse (fun hh => h2 (List.tail_eq_of_cons_eq hh))
    | isFalse h1 => isFalse (fun hh => h1 (List.head_eq_of_cons_eq hh))

/-- Decidable equality on the key-value lists of `PyVal` dicts. -/
def PyVal.decEqDict : (xs ys : List (String × PyVal)) → Decidable (xs = ys)
  | [], [] => isTrue rfl
  | [], _ :: _ => isFalse (fun hh => List.noConfusion hh)
  | _ :: _, [] => isFalse (fun hh => List.noConfusion hh)
  | (k1, v1) :: xs, (k2, v2) :: ys =>
    if hk : k1 = k2 then
      match PyVal.decEq v1 v2 with
      | isTrue h1 =>
        match PyVal.decEqDict xs ys with
        | isTrue h2 => isTrue (by rw [hk, h1, h2])
        | isFalse h2 => isFalse (fun hh => h2 (List.tail_eq_of_cons_eq hh))
      | isFalse h1 =>
        isFalse (fun hh => h1 (congrArg Prod.snd (List.head_eq_of_cons_eq hh)))
    else
      isFalse (fun hh => hk (congrArg Prod.fst (List.head_eq_of_cons_eq hh)))

end

instance : DecidableEq PyVal := PyVal.decEq

/-- The Python exceptions the script can raise or catch while extracting. -/
inductive PyErr where
  | keyError (k : String)
  | typeError
  | indexError
deriving DecidableEq, Repr

instance {ε α : Type} [DecidableEq ε] [DecidableEq α] : DecidableEq (Except ε α) :=
  fun a b =>
    match a, b with
    | Except.ok x, Except.ok y =>
      if h : x = y then isTrue (congrArg Except.ok h)
      else isFalse (fun hh => h (by cases hh; rfl))
    | Except.error x, Except.error y =>
      if h : x = y then isTrue (congrArg Except.error h)
      else isFalse (fun hh => h (by cases hh; rfl))
    | Except.ok _, Except.error _ => isFalse (fun hh => Except.noConfusion hh)
    | Except.error _, Except.ok _ => isFalse (fun hh => Except.noConfusion hh)

/-- Python subscript `v[k]` with a string key: a dict returns the value of
the first matching key or raises `KeyError`; every other carrier raises
`TypeError` (`None`, lists, ints and strings are not subscriptable by a
string). -/
def pySubscript : PyVal → String → Except PyErr PyVal
  | PyVal.dict kvs, k =>
    match kvs.find? (fun kv => kv.1 == k) with
    | some kv => Except.ok kv.2
    | Option.none => Except.error (PyErr.keyError k)
  | PyVal.str _, _ => Except.error PyErr.typeError
  | PyVal.int _, _ => Except.error PyErr.typeError
  | PyVal.none, _ => Except.error PyErr.typeError
  | PyVal.list _, _ => Except.error PyErr.typeError

/-- Python subscript `v[0]`: first element of a list or string
(`IndexError` when empty), `KeyError` for a dict (`0` is not one of its
string keys), `TypeError` for `None` and integers. -/
def pyIndex0 : PyVal → Except PyErr PyVal
  | PyVal.list [] => Except.error PyErr.indexError
  | PyVal.list (x :: _) => Except.ok x
  | PyVal.str ⟨[]⟩ => Except.error PyErr.indexError
  | PyVal.str ⟨c :: _⟩ => Except.ok (PyVal.str ⟨[c]⟩)
  | PyVal.dict _ => Except.error (PyErr.keyError "0")
  | PyVal.none => Except.error PyErr.typeError
  | PyVal.int _ => Except.error PyErr.typeError

/-- Python iteration `for x in v`: lists yield their elements, strings
their characters, dicts their keys; `None` and integers raise
`TypeError`. -/
def pyIterate : PyVal → Except PyErr (List PyVal)
  | PyVal.list xs => Except.ok xs
  | PyVal.str s => Except.ok (s.data.map (fun c => PyVal.str ⟨[c]⟩))
  | PyVal.dict kvs => Except.ok (kvs.map (fun kv => PyVal.str kv.1))
  | PyVal.none => Except.error PyErr.typeError
  | PyVal.int _ => Except.error PyErr.typeError

/-- `str(v)` as `numpy` applies it when promoting a mixed str/int batch to
a string array: integers become their decimal rendering. -/
def pyStr : PyVal → PyVal
  | PyVal.int n => PyVal.str (toString n)
  | v => v

/-- An element that forces `numpy.array` into object dtype (anything that
is neither a string nor an integer). -/
def isObjectElem : PyVal → Bool
  | PyVal.str _ => false
  | PyVal.int _ => false
  | _ => true

/-- A string element (drives promotion of an all-str/int batch to a string
dtype). -/
def isStrElem : PyVal → Bool
  | PyVal.str _ => true
  | _ => false

/-- `numpy.array` applied to the extracted batch (`np.array(tracks)` at the
end of `get_tracks_from_playlist`): if some element is neither str nor int
the array has object dtype and the values are kept as they are; otherwise,
if some element is a string, every element is coerced to its string form;
an all-integer batch stays integral. -/
def npArray (rows : List (List PyVal)) : List (List PyVal) :=
  if rows.any (fun r => r.any isObjectElem) then rows
  else if rows.any (fun r => r.any isStrElem) then rows.map (List.map pyStr)
  else rows

/-- The field reads shared by the two branches of
`get_tracks_from_playlist` (source lines 77-89 and 96-107), in source
order: name, id, first artist's name and id, album name and id,
popularity.  `src` is `item['track']` in the playlist branch and `item`
itself in the top-items branch. -/
def extractTrackFields (src : PyVal) : Except PyErr (List PyVal) := do
  let track_name ← pySubscript src "name"
  let track_id ← pySubscript src "id"
  let artists ← pySubscript src "artists"
  let artist ← pyIndex0 artists
  let artist_name ← pySubscript artist "name"
  let artist_id ← pySubscript artist "id"
  let album1 ← pySubscript src "album"
  let album_name ← pySubscript album1 "name"
  let album2 ← pySubscript src "album"
  let album_id ← pySubscript album2 "id"
  let popularity ← pySubscript src "popularity"
  pure [track_name, track_id, artist_name, artist_id, album_name, album_id, popularity]

/-- One loop iteration body of `get_tracks_from_playlist` (without the
`except TypeError` handler): the `time == None` branch reads the fields
from `item['track']` and appends `mood`; the other branch reads them from
`item` directly and appends `mood` and `time`. -/
def extractItem (time mood item : PyVal) : Except PyErr (List PyVal) :=
  if time = PyVal.none then do
    let track ← pySubscript item "track"
    let fields ← extractTrackFields track
    pure (fields ++ [mood])
  else do
    let fields ← extractTrackFields item
    pure (fields ++ [mood, time])

/-- The `for item in items` loop of `get_tracks_from_playlist`: a
`TypeError` from an item is caught and the item is skipped (`continue`);
any other exception (for example a `KeyError` from a missing dict key)
propagates and aborts the whole call. -/
def extractLoop (time mood : PyVal) : List PyVal → Except PyErr (List (List PyVal))
  | [] => Except.ok []
  | item :: rest =>
    match extractItem time mood item with
    | Except.ok info => Except.map (fun ts => info :: ts) (extractLoop time mood rest)
    | Except.error PyErr.typeError => extractLoop time mood rest
    | Except.error e => Except.error e

/-- `get_tracks_from_playlist(playlist, mood, time)` (source lines 56-116):
reads `playlist['items']`, iterates it extracting one record per item
(skipping items that raise `TypeError`), and returns `np.array(tracks)`. -/
def get_tracks_from_playlist (playlist mood time : PyVal) :
    Except PyErr (List (List PyVal)) := do
  let items ← pySubscript playlist "items"
  let its ← pyIterate items
  let tracks ← extractLoop time mood its
  pure (npArray tracks)

/-- A pandas `DataFrame`: an ordered list of column labels and a list of
rows, each row holding one value per column (positionally). -/
structure DataFrame where
  cols : List String
  rows : List (List PyVal)
deriving DecidableEq, Repr

/-- Well-formedness: every row has exactly one value per column. -/
def DataFrame.Wf (df : DataFrame) : Prop :=
  ∀ r ∈ df.rows, r.length = df.cols.length

instance (df : DataFrame) : Decidable df.Wf := by
  unfold DataFrame.Wf; infer_instance

/-- Position of the first column with a given label, if any. -/
def colIndex? (c : String) : List String → Option Nat
  | [] => Option.none
  | x :: xs => if x = c then some 0 else Option.map (fun i => i + 1) (colIndex? c xs)

/-- Column access `df[c]`: the list of the column's values in row order;
a missing label raises `KeyError`. -/
def DataFrame.getCol (df : DataFrame) (c : String) : Except PyErr (List PyVal) :=
  match colIndex? c df.cols with
  | some i => Except.ok (df.rows.map (fun r => r.getD i PyVal.none))
  | Option.none => Except.error (PyErr.keyError c)

/-- `DataFrame.drop_duplicates` row semantics (pandas default
`keep='first'`): a row is dropped exactly when an identical row (equal in
all columns) occurred earlier; the first occurrence is kept.  `seen`
accumulates the rows already emitted or dropped. -/
def dropDupRows (seen : List (List PyVal)) : List (List PyVal) → List (List PyVal)
  | [] => []
  | r :: rs =>
    if r ∈ seen then dropDupRows (r :: seen) rs
    else r :: dropDupRows (r :: seen) rs

/-- `df.drop_duplicates()` (source lines 147 and 242). -/
def DataFrame.drop_duplicates (df : DataFrame) : DataFrame :=
  ⟨df.cols, dropDupRows [] df.rows⟩

/-- The specification's wording of Deduplication, stated independently of
the pandas implementation: keep each row, removing every later exact
duplicate of it, and recurse on what remains. -/
def specDedup : List (List PyVal) → List (List PyVal)
  | [] => []
  | r :: rs => r :: specDedup (rs.filter (fun x => x ≠ r))
termination_by l => l.length
decreasing_by
  simp only [List.length_cons]
  exact Nat.lt_succ_of_le (List.length_filter_le _ _)

/-- Python `d.get(k)` on a dict rendered as a key-value list; pandas fills
absent keys with `NaN`, which we model as `PyVal.none`. -/
def dictGet (d : List (String × PyVal)) (k : String) : PyVal :=
  match d.find? (fun kv => kv.1 == k) with
  | some kv => kv.2
  | Option.none => PyVal.none

/-- Accumulate the keys of one dict onto a column-label list, keeping
first-appearance order (how `pd.DataFrame(list_of_dicts)` builds its
columns). -/
def addKeys (acc : List String) (d : List (String × PyVal)) : List String :=
  d.foldl (fun a kv => if kv.1 ∈ a then a else a ++ [kv.1]) acc

/-- The column labels of `pd.DataFrame(list_of_dicts)`: union of the dicts'
keys in first-appearance order. -/
def unionKeys (ds : List (List (String × PyVal))) : List String :=
  ds.foldl addKeys []

/-- `pd.DataFrame(list_of_dicts)`: one row per dict, one column per key in
first-appearance order, absent keys filled with `NaN` (`PyVal.none`). -/
def dataFrameOfDicts (ds : List (List (String × PyVal))) : DataFrame :=
  let cs := unionKeys ds
  ⟨cs, ds.map (fun d => cs.map (dictGet d))⟩

/-- `df.drop(columns=cs)`: raises `KeyError` if any listed label is absent
(pandas default `errors='raise'`), otherwise removes those columns from
the labels and from every row. -/
def DataFrame.dropCols (df : DataFrame) (cs : List String) : Except PyErr DataFrame :=
  match cs.find? (fun c => !(df.cols.contains c)) with
  | some c => Except.error (PyErr.keyError c)
  | Option.none =>
    Except.ok ⟨df.cols.filter (fun c => !(cs.contains c)),
      df.rows.map (fun r => ((df.cols.zip r).filter (fun p => !(cs.contains p.1))).map Prod.snd)⟩

/-- `df.rename(columns={old: new})`: relabels matching columns, silently
ignoring an absent label. -/
def DataFrame.renameCol (df : DataFrame) (old new : String) : DataFrame :=
  ⟨df.cols.map (fun c => if c = old then new else c), df.rows⟩

/-- The row block a single left row contributes to a left merge: all right
rows whose key equals the left row's key (key column removed), or the left
row padded with `NaN` when there is no match. -/
def mergeRowsOne (li ri : Nat) (rrows : List (List PyVal)) (rwidth : Nat)
    (lr : List PyVal) : List (List PyVal) :=
  let ms := rrows.filter (fun rr => rr.getD ri PyVal.none == lr.getD li PyVal.none)
  if ms.isEmpty then [lr ++ List.replicate (rwidth - 1) PyVal.none]
  else ms.map (fun rr => lr ++ rr.eraseIdx ri)

/-- The rows of `left.merge(right, on=key, how='left')`: left rows in
order, each expanded by its matches. -/
def mergeRows (li ri : Nat) (rrows : List (List PyVal)) (rwidth : Nat) :
    List (List PyVal) → List (List PyVal)
  | [] => []
  | lr :: rest => mergeRowsOne li ri rrows rwidth lr ++ mergeRows li ri rrows rwidth rest

/-- `left.merge(right, on=key, how='left')`: requires the key column in
both frames; output columns are the left columns followed by the non-key
right columns, overlapping non-key labels suffixed with `_x` / `_y`. -/
def DataFrame.merge (l r : DataFrame) (key : String) : Except PyErr DataFrame :=
  match colIndex? key l.cols, colIndex? key r.cols with
  | some li, some ri =>
    Except.ok ⟨l.cols.map (fun c => if c ≠ key ∧ r.cols.contains c then c ++ "_x" else c) ++
        (r.cols.eraseIdx ri).map (fun c => if c ≠ key ∧ l.cols.contains c then c ++ "_y" else c),
      mergeRows li ri r.rows r.cols.length l.rows⟩
  | _, _ => Except.error (PyErr.keyError key)

/-- `df.drop(c, axis=1)` guarded by `if c in df.columns` as in the source:
removes every column labelled `c`, a no-op when absent. -/
def dropColNoerr (df : DataFrame) (c : String) : DataFrame :=
  if df.cols.contains c then
    ⟨df.cols.filter (fun x => x ≠ c),
      df.rows.map (fun r => ((df.cols.zip r).filter (fun p => p.1 ≠ c)).map Prod.snd)⟩
  else df

/-- `generate_features(df, track_id)` (source lines 150-175).  The
per-identifier call `sp.audio_features(_id)[0]` is the oracle `lookup`,
returning the feature dict of an identifier or `None`.  Steps, as in the
source: read the id column; collect lookups, `filter(None, ...)` keeping
only truthy (non-`None`, non-empty) dicts; build a frame; drop the three
URI-valued columns; rename `id` to `track_id`; left-merge onto `df`; drop
a leftover `index` column if present. -/
def generate_features (lookup : PyVal → Option (List (String × PyVal)))
    (df : DataFrame) (track_id : String) : Except PyErr DataFrame := do
  let ids ← df.getCol track_id
  let features_list := (ids.filterMap lookup).filter (fun d => !d.isEmpty)
  let features_df := dataFrameOfDicts features_list
  let fdf ← features_df.dropCols ["uri", "track_href", "analysis_url"]
  let fdf := fdf.renameCol "id" "track_id"
  let merged ← df.merge fdf track_id
  pure (dropColNoerr merged "index")

/-- Sequential effectful map over a list, aborting at the first raised
exception — the semantics of the genre-collection `for` loop. -/
def exMapM (f : PyVal → Except PyErr PyVal) : List PyVal → Except PyErr (List PyVal)
  | [] => Except.ok []
  | x :: xs => do
    let y ← f x
    let ys ← exMapM f xs
    pure (y :: ys)

/-- Column assignment `df[c] = vals`: replaces the column when the label
exists, otherwise appends a new column on the right.  (In the script the
value list always has exactly one entry per row.) -/
def DataFrame.setCol (df : DataFrame) (c : String) (vals : List PyVal) : DataFrame :=
  match colIndex? c df.cols with
  | some i => ⟨df.cols, df.rows.zipWith (fun r v => r.set i v) vals⟩
  | Option.none => ⟨df.cols ++ [c], df.rows.zipWith (fun r v => r ++ [v]) vals⟩

/-- `add_genres(df, artist_id)` (source lines 180-193).  The per-row call
`sp.artist(_id)` is the oracle `artist`; the loop reads `['genres']` from
each artist object, collecting the lists in row order, then attaches them
as the `genres` column.  The Python function mutates `df` in place and
returns `None`; the state change is modelled by returning the updated
frame. -/
def add_genres (artist : PyVal → PyVal) (df : DataFrame) (artist_id : String) :
    Except PyErr DataFrame := do
  let ids ← df.getCol artist_id
  let genres ← exMapM (fun v => pySubscript (artist v) "genres") ids
  pure (df.setCol "genres" genres)

/-- The scalar fields of a fully well-formed catalog item: all text fields
are strings and popularity is an integer, as the external service sends
them. -/
structure MoodFields where
  tn : String
  ti : String
  an : String
  ai : String
  bn : String
  bi : String
  pop : Int

/-- A well-formed collection-membership item (shape of the `time == None`
branch) with one artist, built from its scalar fields. -/
def mkMoodItem (f : MoodFields) : PyVal :=
  PyVal.dict [("track", PyVal.dict [("name", PyVal.str f.tn), ("id", PyVal.str f.ti),
    ("artists", PyVal.list [PyVal.dict [("name", PyVal.str f.an), ("id", PyVal.str f.ai)]]),
    ("album", PyVal.dict [("name", PyVal.str f.bn), ("id", PyVal.str f.bi)]),
    ("popularity", PyVal.int f.pop)])]

/-- The raw record the loop body builds for a well-formed item before
`np.array`: seven field values then the mood label; popularity is still an
integer here. -/
def rawMoodRecord (m : String) (f : MoodFields) : List PyVal :=
  [PyVal.str f.tn, PyVal.str f.ti, PyVal.str f.an, PyVal.str f.ai,
   PyVal.str f.bn, PyVal.str f.bi, PyVal.int f.pop, PyVal.str m]

/-- The same record after `np.array` promoted the batch to a string dtype:
every value is a string, popularity now the decimal rendering of the
integer. -/
def moodRecord (m : String) (f : MoodFields) : List PyVal :=
  [PyVal.str f.tn, PyVal.str f.ti, PyVal.str f.an, PyVal.str f.ai,
   PyVal.str f.bn, PyVal.str f.bi, PyVal.str (toString f.pop), PyVal.str m]

/-- A feature dict as the features endpoint returns it for track id `t`
(one numeric descriptor suffices for the scenarios), with the service's
`id` field and the three URI-valued fields. -/
def exFeatRow (t : String) : List (String × PyVal) :=
  [("danceability", PyVal.int 5), ("id", PyVal.str t), ("uri", PyVal.str "spotify:u"),
   ("track_href", PyVal.str "href"), ("analysis_url", PyVal.str "url")]

/-- The column labels of `exFeatRow`. -/
def exFeatKeys : List String :=
  ["danceability", "id", "uri", "track_href", "analysis_url"]

/-- Feature lookup oracle that answers only for track id `"t"`. -/
def exLookupT : PyVal → Option (List (String × PyVal)) :=
  fun v => if v = PyVal.str "t" then some (exFeatRow "t") else Option.none

/-- Feature lookup oracle that answers only for track id `"a"`. -/
def exLookupA : PyVal → Option (List (String × PyVal)) :=
  fun v => if v = PyVal.str "a" then some (exFeatRow "a") else Option.none

/-- A track table holding the same track id twice under two moods — what
Deduplication leaves behind when one track is in collections of two
different moods. -/
def exDupDf : DataFrame :=
  ⟨["track_id", "mood"],
   [[PyVal.str "t", PyVal.str "Happy"], [PyVal.str "t", PyVal.str "Sad"]]⟩

/-- A track table with two distinct track ids. -/
def exDistinctDf : DataFrame :=
  ⟨["track_id", "mood"],
   [[PyVal.str "a", PyVal.str "Happy"], [PyVal.str "b", PyVal.str "Sad"]]⟩

/-- Artist-resource oracle: every artist resolves to an object whose
`genres` is a one-element list holding the queried id. -/
def exArtistFn : PyVal → PyVal :=
  fun v => PyVal.dict [("genres", PyVal.list [v])]

/-- A table that already carries a `genres` column. -/
def exGenresDf : DataFrame :=
  ⟨["artist_id", "genres"], [[PyVal.str "x", PyVal.str "old"]]⟩

/-- A two-row table with only an `artist_id` column. -/
def exArtistDf : DataFrame :=
  ⟨["artist_id"], [[PyVal.str "x"], [PyVal.str "y"]]⟩

/-- Per-identifier feature-lookup sanity used by the Feature Augmentation
theorem: whenever the oracle answers for an identifier appearing in the
table, the answer is a dict whose keys are exactly `ks` and whose own `id`
field carries that identifier back (the shape the features endpoint
guarantees). -/
def featureDictOK (lookup : PyVal → Option (List (String × PyVal)))
    (ks : List String) (v : PyVal) : Bool :=
  match lookup v with
  | Option.none => true
  | some d => d.map Prod.fst == ks && dictGet d "id" == v

/-- The single output row a left row yields in the feature merge, when
the right-frame key values are exactly the successfully looked-up ids: a
failed lookup pads the row with `NaN`, a successful one appends the
feature values (key column removed at position `ri`). -/
def mergedRowFn (lookup : PyVal → Option (List (String × PyVal)))
    (ks' : List String) (ri li : Nat) (lr : List PyVal) : List PyVal :=
  match lookup (lr.getD li PyVal.none) with
  | Option.none => lr ++ List.replicate (ks'.length - 1) PyVal.none
  | some d => lr ++ ((ks'.map (dictGet d)).eraseIdx ri)

/-! ## Evaluation lemmas for the extraction pipeline -/

theorem pySubscript_items (v : PyVal) :
    pySubscript (PyVal.dict [("items", v)]) "items" = Except.ok v := rfl

theorem extractItem_mkMoodItem (m : String) (f : MoodFields) :
    extractItem PyVal.none (PyVal.str m) (mkMoodItem f) = Except.ok (rawMoodRecord m f) := rfl

theorem extractItem_nullTrack (m : String) :
    extractItem PyVal.none (PyVal.str m) (PyVal.dict [("track", PyVal.none)]) =
      Except.error PyErr.typeError := rfl

theorem extractLoop_mkMoodItems (m : String) (fs : List MoodFields) :
    extractLoop PyVal.none (PyVal.str m) (fs.map mkMoodItem) =
      Except.ok (fs.map (rawMoodRecord m)) := by
  induction fs with
  | nil => rfl
  | cons f rest ih =>
    simp [extractLoop, extractItem_mkMoodItem, ih, Except.map]

theorem rawMoodRecord_no_object (m : String) (f : MoodFields) :
    (rawMoodRecord m f).any isObjectElem = false := rfl

theorem rawMoodRecord_map_pyStr (m : String) (f : MoodFields) :
    (rawMoodRecord m f).map pyStr = moodRecord m f := rfl

theorem npArray_moodRecords (m : String) (fs : List MoodFields) :
    npArray (fs.map (rawMoodRecord m)) = fs.map (moodRecord m) := by
  cases fs with
  | nil => rfl
  | cons f rest =>
    have hobj : ((f :: rest).map (rawMoodRecord m)).any (fun r => r.any isObjectElem) = false := by
      simp [List.any_map, Function.comp, rawMoodRecord, isObjectElem]
    have hstr : ((f :: rest).map (rawMoodRecord m)).any (fun r => r.any isStrElem) = true := by
      simp [List.any_cons, rawMoodRecord, isStrElem]
    unfold npArray
    rw [hobj, hstr]
    simp [List.map_map, Function.comp, rawMoodRecord_map_pyStr]

/-! ## C2 — a page whose middle item lacks the `track` key -/

/-- Claim C2 counterexample: on a collection-membership page of 3 items
where item 2 lacks a `track` key (items 1 and 3 well-formed), the claim
says Track Extraction returns exactly 2 records; in fact the missing key
raises `KeyError` — only `TypeError` is caught by the loop — so the call
returns no records at all. -/
theorem c2_missing_track_key_counterexample :
    get_tracks_from_playlist
      (PyVal.dict [("items", PyVal.list
        [mkMoodItem ⟨"n1", "t1", "a1", "ai1", "al1", "ali1", 7⟩,
         PyVal.dict [("added_at", PyVal.str "2022")],
         mkMoodItem ⟨"n3", "t3", "a3", "ai3", "al3", "ali3", 9⟩])])
      (PyVal.str "Happy") PyVal.none
    = Except.error (PyErr.keyError "track") := by decide

/-- Claim C2 (corrected): for a collection-membership page of 3 items
where item 2's `track` field is null — the way the data layer actually
signals an absent track, raising a `TypeError` that the loop catches —
`get_tracks_from_playlist` with `time=None` returns exactly 2 records,
for items 1 and 3, each labeled with the supplied mood (values
string-coerced by the final `np.array`). -/
theorem c2_null_track_amended (f1 f3 : MoodFields) (m : String) :
    get_tracks_from_playlist
      (PyVal.dict [("items", PyVal.list
        [mkMoodItem f1, PyVal.dict [("track", PyVal.none)], mkMoodItem f3])])
      (PyVal.str m) PyVal.none
    = Except.ok [moodRecord m f1, moodRecord m f3] := by
  have h := npArray_moodRecords m [f1, f3]
  simp only [List.map_cons, List.map_nil] at h
  simp [get_tracks_from_playlist, pySubscript_items, pyIterate, extractLoop,
    extractItem_mkMoodItem, extractItem_nullTrack, Except.map, bind, Except.bind, h,
    pure, Except.pure]

/-! ## C7 — record field types after `np.array` -/

/-- Claim C7 counterexample: the claim says the popularity field of every
extracted record is an integer.  On a fully well-formed item with integer
popularity 83, `np.array` promotes the mixed str/int batch to a string
array, so the returned record stores the string "83", not an integer. -/
theorem c7_popularity_int_counterexample :
    get_tracks_from_playlist
      (PyVal.dict [("items", PyVal.list [mkMoodItem ⟨"n1", "t1", "a1", "ai1", "al1", "ali1", 83⟩])])
      (PyVal.str "Happy") PyVal.none
    = Except.ok [[PyVal.str "n1", PyVal.str "t1", PyVal.str "a1", PyVal.str "ai1",
        PyVal.str "al1", PyVal.str "ali1", PyVal.str "83", PyVal.str "Happy"]] := by decide

/-- Claim C7 (corrected): for every collection-membership page of
well-formed items (string text fields, integer popularity) and every mood,
each returned record holds the item's fields in order, but `np.array`
coerces the whole batch to strings: the popularity field of every
extracted record is the decimal string rendering of the item's integer
popularity, not an integer. -/
theorem c7_popularity_string_amended (fs : List MoodFields) (m : String) :
    get_tracks_from_playlist (PyVal.dict [("items", PyVal.list (fs.map mkMoodItem))])
      (PyVal.str m) PyVal.none
    = Except.ok (fs.map (moodRecord m)) := by
  simp [get_tracks_from_playlist, pySubscript_items, pyIterate, extractLoop_mkMoodItems,
    npArray_moodRecords, bind, Except.bind, pure, Except.pure]

/-! ## C8 — only the first listed artist is used -/

/-- Claim C8 (confirmed): in both input shapes, when an item's artist list
is `a0 :: rest`, the produced record's artist name and id come from `a0`
alone; the record is the same for every tail `rest` of secondary artists,
which never appear in it. -/
theorem c8_first_artist_only (tn ti an ai bn bi pop mood : PyVal)
    (rest : List PyVal) (tw : String) :
    extractItem PyVal.none mood
      (PyVal.dict [("track", PyVal.dict [("name", tn), ("id", ti),
        ("artists", PyVal.list (PyVal.dict [("name", an), ("id", ai)] :: rest)),
        ("album", PyVal.dict [("name", bn), ("id", bi)]), ("popularity", pop)])])
      = Except.ok [tn, ti, an, ai, bn, bi, pop, mood]
    ∧ extractItem (PyVal.str tw) mood
      (PyVal.dict [("name", tn), ("id", ti),
        ("artists", PyVal.list (PyVal.dict [("name", an), ("id", ai)] :: rest)),
        ("album", PyVal.dict [("name", bn), ("id", bi)]), ("popularity", pop)])
      = Except.ok [tn, ti, an, ai, bn, bi, pop, mood, PyVal.str tw] :=
  ⟨rfl, rfl⟩

/-! ## C3 — what mixed well-formed/malformed pages can produce -/

theorem npArray_length (rows : List (List PyVal)) : (npArray rows).length = rows.length := by
  unfold npArray
  split_ifs <;> simp

theorem npArray_mem (rows : List (List PyVal)) :
    ∀ r ∈ npArray rows, ∃ raw ∈ rows, r = raw ∨ r = raw.map pyStr := by
  unfold npArray
  split_ifs with h1 h2
  · exact fun r hr => ⟨r, hr, Or.inl rfl⟩
  · intro r hr
    rcases List.mem_map.mp hr with ⟨raw, hraw, hmap⟩
    exact ⟨raw, hraw, Or.inr hmap.symm⟩
  · exact fun r hr => ⟨r, hr, Or.inl rfl⟩

theorem extractLoop_sound (time mood : PyVal) :
    ∀ (its : List PyVal) (raws : List (List PyVal)),
      extractLoop time mood its = Except.ok raws →
      raws.length ≤ its.length ∧
      ∀ r ∈ raws, ∃ item ∈ its, extractItem time mood item = Except.ok r := by
  intro its
  induction its with
  | nil =>
    intro raws h
    simp only [extractLoop] at h
    cases h
    simp
  | cons item rest ih =>
    intro raws h
    simp only [extractLoop] at h
    cases hx : extractItem time mood item with
    | ok info =>
      rw [hx] at h
      cases hr : extractLoop time mood rest with
      | ok ts =>
        rw [hr] at h
        simp only [Except.map] at h
        cases h
        rcases ih ts hr with ⟨hlen, hmem⟩
        constructor
        · simpa using Nat.succ_le_succ hlen
        · intro r hrr
          rcases List.mem_cons.mp hrr with hre | hre
          · exact ⟨item, List.mem_cons_self _ _, by subst hre; exact hx⟩
          · rcases hmem r hre with ⟨it2, hit2, hx2⟩
            exact ⟨it2, List.mem_cons_of_mem _ hit2, hx2⟩
      | error e =>
        rw [hr] at h
        simp [Except.map] at h
    | error e =>
      rw [hx] at h
      cases e with
      | typeError =>
        rcases ih raws h with ⟨hlen, hmem⟩
        constructor
        · exact Nat.le_succ_of_le hlen
        · intro r hrr
          rcases hmem r hrr with ⟨it2, hit2, hx2⟩
          exact ⟨it2, List.mem_cons_of_mem _ hit2, hx2⟩
      | keyError k => cases h
      | indexError => cases h

/-- Claim C3 counterexample: the claim says every returned record has all
of its required fields non-null.  An item whose `track.name` is null is
extracted without any exception, so a record with a null name field is
returned (and, holding a null, the batch keeps object dtype — popularity
stays an integer). -/
theorem c3_nonnull_fields_counterexample :
    get_tracks_from_playlist
      (PyVal.dict [("items", PyVal.list [PyVal.dict [("track", PyVal.dict
        [("name", PyVal.none), ("id", PyVal.str "t1"),
         ("artists", PyVal.list [PyVal.dict [("name", PyVal.str "a1"), ("id", PyVal.str "ai1")]]),
         ("album", PyVal.dict [("name", PyVal.str "al1"), ("id", PyVal.str "ali1")]),
         ("popularity", PyVal.int 7)])]])])
      (PyVal.str "Happy") PyVal.none
    = Except.ok [[PyVal.none, PyVal.str "t1", PyVal.str "a1", PyVal.str "ai1",
        PyVal.str "al1", PyVal.str "ali1", PyVal.int 7, PyVal.str "Happy"]] := by decide

/-- Claim C3 (corrected): for every input page and label, whenever Track
Extraction returns, it returns at most one record per input item, and each
returned record is the complete extraction of some input item (possibly
coerced element-wise to strings by `np.array`) — a malformed item whose
extraction raised contributes no record, never a partial one.  The claim's
further conjunct that every required field of a returned record is
non-null is false (see the counterexample): a field is null exactly when
the item itself held null at a present field, which raises no exception. -/
theorem c3_extraction_amended (p mood time itemsVal : PyVal) (its : List PyVal)
    (rows : List (List PyVal))
    (hitems : pySubscript p "items" = Except.ok itemsVal)
    (hits : pyIterate itemsVal = Except.ok its)
    (hok : get_tracks_from_playlist p mood time = Except.ok rows) :
    rows.length ≤ its.length ∧
    ∀ r ∈ rows, ∃ item ∈ its, ∃ raw, extractItem time mood item = Except.ok raw ∧
      (r = raw ∨ r = raw.map pyStr) := by
  unfold get_tracks_from_playlist at hok
  simp only [bind, Except.bind] at hok
  rw [hitems] at hok
  dsimp only at hok
  rw [hits] at hok
  dsimp only at hok
  cases hl : extractLoop time mood its with
  | ok raws =>
    rw [hl] at hok
    simp only [pure, Except.pure] at hok
    cases hok
    rcases extractLoop_sound time mood its raws hl with ⟨hlen, hmem⟩
    constructor
    · rw [npArray_length]; exact hlen
    · intro r hr
      rcases npArray_mem raws r hr with ⟨raw, hraw, hform⟩
      rcases hmem raw hraw with ⟨item, hitem, hx⟩
      exact ⟨item, hitem, raw, hx, hform⟩
  | error e =>
    rw [hl] at hok
    cases hok

/-- Witness for C3 at a concrete mixed page: one well-formed item and one
item with a null `track`; the call returns one record, and the conclusions
of the amended claim hold there. -/
theorem c3_extraction_witness :
    (1 : Nat) ≤ 2 ∧
    ∀ r ∈ [moodRecord "Happy" ⟨"n", "t", "a", "ai", "al", "ali", 7⟩],
      ∃ item ∈ [mkMoodItem ⟨"n", "t", "a", "ai", "al", "ali", 7⟩,
                PyVal.dict [("track", PyVal.none)]],
        ∃ raw, extractItem PyVal.none (PyVal.str "Happy") item = Except.ok raw ∧
          (r = raw ∨ r = raw.map pyStr) :=
  c3_extraction_amended
    (PyVal.dict [("items", PyVal.list [mkMoodItem ⟨"n", "t", "a", "ai", "al", "ali", 7⟩,
      PyVal.dict [("track", PyVal.none)]])])
    (PyVal.str "Happy") PyVal.none
    (PyVal.list [mkMoodItem ⟨"n", "t", "a", "ai", "al", "ali", 7⟩,
      PyVal.dict [("track", PyVal.none)]])
    [mkMoodItem ⟨"n", "t", "a", "ai", "al", "ali", 7⟩, PyVal.dict [("track", PyVal.none)]]
    [moodRecord "Happy" ⟨"n", "t", "a", "ai", "al", "ali", 7⟩]
    (by decide) (by decide) (by decide)

/-! ## C4, C5 — deduplication -/

theorem specDedup_nil : specDedup [] = [] := by
  simp [specDedup]

theorem specDedup_cons (r : List PyVal) (rs : List (List PyVal)) :
    specDedup (r :: rs) = r :: specDedup (rs.filter (fun x => decide (x ≠ r))) := by
  simp [specDedup]

theorem filter_comm_bool (p q : List PyVal → Bool) (l : List (List PyVal)) :
    (l.filter q).filter p = (l.filter p).filter q := by
  rw [List.filter_filter, List.filter_filter]
  apply List.filter_congr
  intro x _
  exact Bool.and_comm _ _

theorem dropDupRows_eq_specDedup_filter :
    ∀ (l : List (List PyVal)) (seen : List (List PyVal)),
      dropDupRows seen l = specDedup (l.filter (fun x => decide (x ∉ seen))) := by
  intro l
  induction l with
  | nil =>
    intro seen
    simp [dropDupRows, specDedup_nil]
  | cons r rs ih =>
    intro seen
    by_cases hr : r ∈ seen
    · rw [dropDupRows, if_pos hr, ih (r :: seen)]
      have hcons : List.filter (fun x => decide (x ∉ seen)) (r :: rs) =
          List.filter (fun x => decide (x ∉ seen)) rs := by
        simp [List.filter_cons, hr]
      rw [hcons]
      congr 1
      apply List.filter_congr
      intro x _
      simp only [decide_eq_decide, List.mem_cons, not_or]
      constructor
      · exact fun h => h.2
      · exact fun h => ⟨fun he => h (he.symm ▸ hr), h⟩
    · rw [dropDupRows, if_neg hr, ih (r :: seen)]
      have hcons : List.filter (fun x => decide (x ∉ seen)) (r :: rs) =
          r :: List.filter (fun x => decide (x ∉ seen)) rs := by
        simp [List.filter_cons, hr]
      rw [hcons, specDedup_cons, List.filter_filter]
      refine congrArg (fun t => r :: specDedup t) ?_
      apply List.filter_congr
      intro x _
      by_cases hxr : x = r <;> by_cases hxs : x ∈ seen <;> simp [hxr, hxs]

theorem dropDupRows_eq_specDedup (l : List (List PyVal)) :
    dropDupRows [] l = specDedup l := by
  rw [dropDupRows_eq_specDedup_filter l []]
  congr 1
  apply List.filter_eq_self.mpr
  intro x _
  simp

theorem filter_specDedup :
    ∀ (n : Nat) (l : List (List PyVal)), l.length ≤ n → ∀ p : List PyVal → Bool,
      (specDedup l).filter p = specDedup (l.filter p) := by
  intro n
  induction n with
  | zero =>
    intro l hl p
    have h0 : l = [] := List.length_eq_zero.mp (Nat.le_zero.mp hl)
    subst h0
    simp [specDedup_nil]
  | succ n ih =>
    intro l hl p
    cases l with
    | nil => simp [specDedup_nil]
    | cons r rs =>
      have hlen : (rs.filter (fun x => decide (x ≠ r))).length ≤ n :=
        le_trans (List.length_filter_le _ _) (Nat.le_of_succ_le_succ hl)
      by_cases hp : p r = true
      · rw [specDedup_cons, List.filter_cons_of_pos (by simp [hp]),
          List.filter_cons_of_pos (by simp [hp]), specDedup_cons]
        rw [ih _ hlen p, filter_comm_bool]
      · have hp' : p r = false := Bool.eq_false_iff.mpr hp
        rw [specDedup_cons, List.filter_cons_of_neg (by simp [hp']),
          List.filter_cons_of_neg (by simp [hp'])]
        rw [ih _ hlen p]
        congr 1
        rw [filter_comm_bool]
        apply List.filter_eq_self.mpr
        intro x hx
        have hpx : p x = true := List.of_mem_filter hx
        simp only [decide_eq_true_eq]
        intro he
        rw [he] at hpx
        exact hp hpx

theorem specDedup_idem :
    ∀ (n : Nat) (l : List (List PyVal)), l.length ≤ n →
      specDedup (specDedup l) = specDedup l := by
  intro n
  induction n with
  | zero =>
    intro l hl
    have h0 : l = [] := List.length_eq_zero.mp (Nat.le_zero.mp hl)
    subst h0
    simp [specDedup_nil]
  | succ n ih =>
    intro l hl
    cases l with
    | nil => simp [specDedup_nil]
    | cons r rs =>
      have hlen : (rs.filter (fun x => decide (x ≠ r))).length ≤ n :=
        le_trans (List.length_filter_le _ _) (Nat.le_of_succ_le_succ hl)
      rw [specDedup_cons, specDedup_cons]
      rw [filter_specDedup n _ hlen]
      have hidem : ((rs.filter (fun x => decide (x ≠ r))).filter (fun x => decide (x ≠ r)))
          = rs.filter (fun x => decide (x ≠ r)) := by
        apply List.filter_eq_self.mpr
        intro x hx
        exact (List.mem_filter.mp hx).2
      rw [hidem, ih _ hlen]

/-- Claim C4 (confirmed): `drop_duplicates` removes a row exactly when it
is an exact duplicate, in all columns, of an earlier row — its rows are
exactly `specDedup`, the spec's collapse-later-exact-duplicates recursion,
and columns are untouched.  In particular two fully-identical rows
collapse to one while two rows identical everywhere except the mood slot
both survive. -/
theorem c4_dedup_exact_duplicates (df : DataFrame) (pre post : List PyVal) (m1 m2 : PyVal) :
    df.drop_duplicates.cols = df.cols ∧
    df.drop_duplicates.rows = specDedup df.rows ∧
    dropDupRows [] [pre ++ m1 :: post, pre ++ m2 :: post] =
      (if m1 = m2 then [pre ++ m1 :: post]
       else [pre ++ m1 :: post, pre ++ m2 :: post]) := by
  refine ⟨rfl, dropDupRows_eq_specDedup df.rows, ?_⟩
  by_cases h : m1 = m2
  · subst h
    simp [dropDupRows]
  · have hne : pre ++ m2 :: post ≠ pre ++ m1 :: post := by
      intro he
      have h2 := List.append_cancel_left he
      injection h2 with h3 _
      exact h h3.symm
    simp [dropDupRows, hne, h]

/-- Claim C5 (confirmed): deduplication is idempotent — applying
`drop_duplicates` twice to any table yields the same table as applying it
once. -/
theorem c5_dedup_idempotent (df : DataFrame) :
    df.drop_duplicates.drop_duplicates = df.drop_duplicates := by
  unfold DataFrame.drop_duplicates
  simp only [dropDupRows_eq_specDedup]
  rw [specDedup_idem df.rows.length df.rows le_rfl]

/-! ## C6, C10 — genre augmentation -/

theorem exMapM_length (f : PyVal → Except PyErr PyVal) :
    ∀ (l : List PyVal) (gs : List PyVal), exMapM f l = Except.ok gs → gs.length = l.length := by
  intro l
  induction l with
  | nil =>
    intro gs h
    cases h
    rfl
  | cons x xs ih =>
    intro gs h
    simp only [exMapM, bind, Except.bind] at h
    cases hfx : f x with
    | error e => rw [hfx] at h; cases h
    | ok y =>
      rw [hfx] at h
      cases hrest : exMapM f xs with
      | error e => rw [hrest] at h; cases h
      | ok ys =>
        rw [hrest] at h
        simp only [pure, Except.pure] at h
        cases h
        simp [ih ys hrest]

theorem exMapM_getD (f : PyVal → Except PyErr PyVal) :
    ∀ (l : List PyVal) (gs : List PyVal), exMapM f l = Except.ok gs →
      ∀ i, i < l.length → f (l.getD i PyVal.none) = Except.ok (gs.getD i PyVal.none) := by
  intro l
  induction l with
  | nil =>
    intro gs _ i hi
    exact absurd hi (by simp)
  | cons x xs ih =>
    intro gs h i hi
    simp only [exMapM, bind, Except.bind] at h
    cases hfx : f x with
    | error e => rw [hfx] at h; cases h
    | ok y =>
      rw [hfx] at h
      cases hrest : exMapM f xs with
      | error e => rw [hrest] at h; cases h
      | ok ys =>
        rw [hrest] at h
        simp only [pure, Except.pure] at h
        cases h
        cases i with
        | zero => simpa using hfx
        | succ j =>
          have hj : j < xs.length := Nat.lt_of_succ_lt_succ hi
          simpa using ih ys hrest j hj

theorem colIndex?_eq_none (c : String) :
    ∀ l : List String, c ∉ l → colIndex? c l = Option.none := by
  intro l
  induction l with
  | nil => intro _; rfl
  | cons x xs ih =>
    intro h
    have hx : ¬(x = c) := fun he => h (he ▸ List.mem_cons_self _ _)
    simp [colIndex?, hx, ih (fun hm => h (List.mem_cons_of_mem _ hm))]

theorem colIndex?_append_self (c : String) :
    ∀ l : List String, c ∉ l → colIndex? c (l ++ [c]) = some l.length := by
  intro l
  induction l with
  | nil => intro _; simp [colIndex?]
  | cons x xs ih =>
    intro h
    have hx : ¬(x = c) := fun he => h (he ▸ List.mem_cons_self _ _)
    simp [colIndex?, hx, ih (fun hm => h (List.mem_cons_of_mem _ hm))]

theorem colIndex?_append_left (c : String) :
    ∀ (l l' : List String), c ∈ l → colIndex? c (l ++ l') = colIndex? c l := by
  intro l
  induction l with
  | nil =>
    intro l' h
    cases h
  | cons x xs ih =>
    intro l' h
    by_cases hx : x = c
    · simp [colIndex?, hx]
    · have hm : c ∈ xs := by
        rcases List.mem_cons.mp h with he | hm
        · exact absurd he.symm hx
        · exact hm
      simp [colIndex?, hx, ih l' hm]

theorem getD_append_singleton : ∀ (r : List PyVal) (v : PyVal),
    (r ++ [v]).getD r.length PyVal.none = v := by
  intro r
  induction r with
  | nil => intro v; rfl
  | cons x xs ih => intro v; simp only [List.cons_append, List.length_cons, List.getD_cons_succ]; exact ih v

theorem zipWith_append_map_getD_last :
    ∀ (rows : List (List PyVal)) (gs : List PyVal) (W : Nat),
      rows.length = gs.length → (∀ r ∈ rows, r.length = W) →
      (List.zipWith (fun r v => r ++ [v]) rows gs).map (fun r => r.getD W PyVal.none) = gs := by
  intro rows
  induction rows with
  | nil =>
    intro gs W hlen _
    have : gs = [] := List.length_eq_zero.mp hlen.symm
    subst this
    rfl
  | cons r rs ih =>
    intro gs W hlen hW
    cases gs with
    | nil => cases hlen
    | cons g gs' =>
      have hrW : r.length = W := hW r (List.mem_cons_self _ _)
      subst hrW
      simp only [List.zipWith_cons_cons, List.map_cons, getD_append_singleton]
      rw [ih gs' r.length (by simpa using hlen) (fun x hx => hW x (List.mem_cons_of_mem _ hx))]

theorem zipWith_append_map_getD_left :
    ∀ (rows : List (List PyVal)) (gs : List PyVal) (li : Nat),
      rows.length = gs.length → (∀ r ∈ rows, li < r.length) →
      (List.zipWith (fun r v => r ++ [v]) rows gs).map (fun r => r.getD li PyVal.none) =
        rows.map (fun r => r.getD li PyVal.none) := by
  intro rows
  induction rows with
  | nil =>
    intro gs li hlen _
    have : gs = [] := List.length_eq_zero.mp hlen.symm
    subst this
    rfl
  | cons r rs ih =>
    intro gs li hlen hW
    cases gs with
    | nil => cases hlen
    | cons g gs' =>
      have hli : li < r.length := hW r (List.mem_cons_self _ _)
      simp only [List.zipWith_cons_cons, List.map_cons]
      rw [List.getD_append _ _ _ _ hli]
      rw [ih gs' li (by simpa using hlen) (fun x hx => hW x (List.mem_cons_of_mem _ hx))]

theorem colIndex?_lt_length (c : String) :
    ∀ (l : List String) (i : Nat), colIndex? c l = some i → i < l.length := by
  intro l
  induction l with
  | nil => intro i h; cases h
  | cons x xs ih =>
    intro i h
    by_cases hx : x = c
    · simp only [colIndex?, if_pos hx] at h
      cases h
      simp
    · simp only [colIndex?, if_neg hx] at h
      cases hr : colIndex? c xs with
      | none => rw [hr] at h; cases h
      | some j =>
        rw [hr] at h
        simp only [Option.map] at h
        cases h
        simpa using Nat.succ_lt_succ (ih j hr)

theorem getCol_ok_structure (df : DataFrame) (c : String) (ids : List PyVal)
    (h : df.getCol c = Except.ok ids) :
    ∃ li, colIndex? c df.cols = some li ∧
      ids = df.rows.map (fun r => r.getD li PyVal.none) := by
  unfold DataFrame.getCol at h
  cases hci : colIndex? c df.cols with
  | some li =>
    rw [hci] at h
    refine ⟨li, rfl, ?_⟩
    cases h
    rfl
  | none =>
    rw [hci] at h
    cases h

theorem add_genres_ok (artist : PyVal → PyVal) (df : DataFrame) (aid : String)
    (ids gs : List PyVal)
    (hids : df.getCol aid = Except.ok ids)
    (hgs : exMapM (fun v => pySubscript (artist v) "genres") ids = Except.ok gs) :
    add_genres artist df aid = Except.ok (df.setCol "genres" gs) := by
  unfold add_genres
  simp only [bind, Except.bind]
  rw [hids]
  dsimp only
  rw [hgs]
  rfl

/-- Claim C10 counterexample: the claim says `add_genres` adds exactly one
new `genres` column to every input table and leaves every pre-existing
column's values unchanged.  On a table that already has a `genres` column,
pandas column assignment replaces it: no new column is added and the
pre-existing `genres` values change. -/
theorem c10_add_genres_counterexample :
    add_genres exArtistFn exGenresDf "artist_id" =
      Except.ok ⟨["artist_id", "genres"], [[PyVal.str "x", PyVal.list [PyVal.str "x"]]]⟩ ∧
    exGenresDf.cols = ["artist_id", "genres"] ∧
    exGenresDf.rows = [[PyVal.str "x", PyVal.str "old"]] := by decide

/-- Claim C10 (corrected): `add_genres` is an in-place update (modelled as
returning the new table state; the Python function returns `None`).  For
every well-formed table without a pre-existing `genres` column, it appends
exactly one new column named `genres` on the right, keeps the row count,
every pre-existing column's values, the order of the pre-existing
columns, and the row order unchanged; a pre-existing `genres` column
would instead be overwritten in place (see the counterexample). -/
theorem c10_add_genres_amended (artist : PyVal → PyVal) (df : DataFrame) (aid : String)
    (ids gs : List PyVal)
    (hwf : df.Wf)
    (hng : "genres" ∉ df.cols)
    (hids : df.getCol aid = Except.ok ids)
    (hgs : exMapM (fun v => pySubscript (artist v) "genres") ids = Except.ok gs) :
    add_genres artist df aid =
      Except.ok ⟨df.cols ++ ["genres"], List.zipWith (fun r v => r ++ [v]) df.rows gs⟩ ∧
    (List.zipWith (fun r v => r ++ [v]) df.rows gs).length = df.rows.length ∧
    ∀ c ∈ df.cols,
      DataFrame.getCol ⟨df.cols ++ ["genres"], List.zipWith (fun r v => r ++ [v]) df.rows gs⟩ c
        = df.getCol c := by
  obtain ⟨li, hci, hidsmap⟩ := getCol_ok_structure df aid ids hids
  have hidslen : ids.length = df.rows.length := by rw [hidsmap]; simp
  have hgslen : gs.length = df.rows.length :=
    (exMapM_length _ ids gs hgs).trans hidslen
  have hsetcol : df.setCol "genres" gs =
      ⟨df.cols ++ ["genres"], List.zipWith (fun r v => r ++ [v]) df.rows gs⟩ := by
    unfold DataFrame.setCol
    rw [colIndex?_eq_none "genres" df.cols hng]
  refine ⟨by rw [add_genres_ok artist df aid ids gs hids hgs, hsetcol], ?_, ?_⟩
  · rw [List.length_zipWith, hgslen]
    simp
  · intro c hc
    unfold DataFrame.getCol
    simp only
    rw [colIndex?_append_left c df.cols ["genres"] hc]
    cases hci2 : colIndex? c df.cols with
    | none => rfl
    | some li2 =>
      simp only
      congr 1
      apply zipWith_append_map_getD_left df.rows gs li2 hgslen.symm
      intro r hr
      rw [hwf r hr]
      exact colIndex?_lt_length c df.cols li2 hci2

/-- Witness for C10 on a concrete two-row table with only an `artist_id`
column and an oracle answering a one-element genre list per artist. -/
theorem c10_add_genres_witness :
    add_genres exArtistFn exArtistDf "artist_id" =
      Except.ok ⟨exArtistDf.cols ++ ["genres"],
        List.zipWith (fun r v => r ++ [v]) exArtistDf.rows
          [PyVal.list [PyVal.str "x"], PyVal.list [PyVal.str "y"]]⟩ ∧
    (List.zipWith (fun r v => r ++ [v]) exArtistDf.rows
      [PyVal.list [PyVal.str "x"], PyVal.list [PyVal.str "y"]]).length = exArtistDf.rows.length ∧
    ∀ c ∈ exArtistDf.cols,
      DataFrame.getCol ⟨exArtistDf.cols ++ ["genres"],
        List.zipWith (fun r v => r ++ [v]) exArtistDf.rows
          [PyVal.list [PyVal.str "x"], PyVal.list [PyVal.str "y"]]⟩ c
        = exArtistDf.getCol c :=
  c10_add_genres_amended exArtistFn exArtistDf "artist_id"
    [PyVal.str "x", PyVal.str "y"]
    [PyVal.list [PyVal.str "x"], PyVal.list [PyVal.str "y"]]
    (by decide) (by decide) (by decide) (by decide)

/-- Claim C6 (confirmed): whenever `add_genres` completes, the produced
`genres` column has exactly one entry per input row, and it is
order-aligned: the entry at position `i` is the genre-tag sequence read
from the artist object looked up for the `artist_id` of row `i` at the
time of the call. -/
theorem c6_add_genres_aligned (artist : PyVal → PyVal) (df : DataFrame) (aid : String)
    (ids gs : List PyVal)
    (hwf : df.Wf)
    (hng : "genres" ∉ df.cols)
    (hids : df.getCol aid = Except.ok ids)
    (hgs : exMapM (fun v => pySubscript (artist v) "genres") ids = Except.ok gs) :
    ∃ out, add_genres artist df aid = Except.ok out ∧
      out.getCol "genres" = Except.ok gs ∧
      gs.length = df.rows.length ∧
      ∀ i, i < gs.length →
        pySubscript (artist (ids.getD i PyVal.none)) "genres" =
          Except.ok (gs.getD i PyVal.none) := by
  obtain ⟨li, hci, hidsmap⟩ := getCol_ok_structure df aid ids hids
  have hidslen : ids.length = df.rows.length := by rw [hidsmap]; simp
  have hgslen : gs.length = df.rows.length :=
    (exMapM_length _ ids gs hgs).trans hidslen
  have hsetcol : df.setCol "genres" gs =
      ⟨df.cols ++ ["genres"], List.zipWith (fun r v => r ++ [v]) df.rows gs⟩ := by
    unfold DataFrame.setCol
    rw [colIndex?_eq_none "genres" df.cols hng]
  refine ⟨df.setCol "genres" gs, add_genres_ok artist df aid ids gs hids hgs, ?_, hgslen, ?_⟩
  · rw [hsetcol]
    unfold DataFrame.getCol
    simp only
    rw [colIndex?_append_self "genres" df.cols hng]
    simp only
    congr 1
    exact zipWith_append_map_getD_last df.rows gs df.cols.length hgslen.symm hwf
  · intro i hi
    have hi' : i < ids.length := by
      rw [exMapM_length _ ids gs hgs] at hi
      exact hi
    exact exMapM_getD _ ids gs hgs i hi'

/-- Witness for C6 on the same concrete table and oracle. -/
theorem c6_add_genres_witness :
    ∃ out, add_genres exArtistFn exArtistDf "artist_id" = Except.ok out ∧
      out.getCol "genres" = Except.ok [PyVal.list [PyVal.str "x"], PyVal.list [PyVal.str "y"]] ∧
      ([PyVal.list [PyVal.str "x"], PyVal.list [PyVal.str "y"]] : List PyVal).length
        = exArtistDf.rows.length ∧
      ∀ i, i < ([PyVal.list [PyVal.str "x"], PyVal.list [PyVal.str "y"]] : List PyVal).length →
        pySubscript (exArtistFn (([PyVal.str "x", PyVal.str "y"] : List PyVal).getD i PyVal.none))
          "genres"
          = Except.ok (([PyVal.list [PyVal.str "x"], PyVal.list [PyVal.str "y"]] :
              List PyVal).getD i PyVal.none) :=
  c6_add_genres_aligned exArtistFn exArtistDf "artist_id"
    [PyVal.str "x", PyVal.str "y"]
    [PyVal.list [PyVal.str "x"], PyVal.list [PyVal.str "y"]]
    (by decide) (by decide) (by decide) (by decide)

/-! ## C9 — all feature lookups empty -/

theorem emptyLookups_filter (lookup : PyVal → Option (List (String × PyVal))) :
    ∀ ids : List PyVal,
      (∀ v ∈ ids, lookup v = Option.none ∨ lookup v = some []) →
      (ids.filterMap lookup).filter (fun d => !d.isEmpty) = [] := by
  intro ids
  induction ids with
  | nil => intro _; rfl
  | cons v vs ih =>
    intro h
    rcases h v (List.mem_cons_self _ _) with hv | hv <;>
      simp [List.filterMap_cons, hv,
        ih (fun u hu => h u (List.mem_cons_of_mem _ hu))]

/-- Claim C9 (confirmed): if the input table is non-empty and every
per-identifier feature lookup comes back empty, `generate_features`
raises: `filter(None, ...)` leaves no feature dicts, the feature frame has
no columns, and dropping the three URI-valued columns fails with a
`KeyError` on the first of them — the function does not return the input
table with all-null feature columns. -/
theorem c9_all_lookups_empty_error (lookup : PyVal → Option (List (String × PyVal)))
    (df : DataFrame) (ids : List PyVal)
    (_hne : df.rows ≠ [])
    (hids : df.getCol "track_id" = Except.ok ids)
    (hempty : ∀ v ∈ ids, lookup v = Option.none ∨ lookup v = some []) :
    generate_features lookup df "track_id" = Except.error (PyErr.keyError "uri") := by
  unfold generate_features
  simp only [bind, Except.bind]
  rw [hids]
  dsimp only
  rw [emptyLookups_filter lookup ids hempty]
  rfl

/-- Witness for C9: a concrete two-row table whose two lookups both return
nothing. -/
theorem c9_all_lookups_empty_witness :
    generate_features (fun _ => Option.none) exDistinctDf "track_id" =
      Except.error (PyErr.keyError "uri") :=
  c9_all_lookups_empty_error (fun _ => Option.none) exDistinctDf
    [PyVal.str "a", PyVal.str "b"]
    (by decide) (by decide) (by decide)

/-! ## C1 — feature augmentation -/

theorem getD_map_lt {α β : Type} (f : α → β) :
    ∀ (l : List α) (i : Nat) (d : α) (d' : β), i < l.length →
      (l.map f).getD i d' = f (l.getD i d) := by
  intro l
  induction l with
  | nil =>
    intro i d d' h
    exact absurd h (by simp)
  | cons x xs ih =>
    intro i d d' h
    cases i with
    | zero => rfl
    | succ j => simpa using ih j d d' (Nat.lt_of_succ_lt_succ h)

theorem zip_map_filter_snd (f : String → PyVal) (p : String → Bool) :
    ∀ cols : List String,
      ((cols.zip (cols.map f)).filter (fun q => p q.1)).map Prod.snd =
        (cols.filter p).map f := by
  intro cols
  induction cols with
  | nil => rfl
  | cons c cs ih =>
    simp only [List.map_cons, List.zip_cons_cons, List.filter_cons]
    by_cases hp : p c
    · simp only [hp, if_pos]
      simp [ih]
    · simp only [hp]
      simp [ih]

theorem addKeys_of_nodup :
    ∀ (d : List (String × PyVal)) (acc : List String),
      (acc ++ d.map Prod.fst).Nodup → addKeys acc d = acc ++ d.map Prod.fst := by
  intro d
  induction d with
  | nil => intro acc _; simp [addKeys]
  | cons kv rest ih =>
    intro acc hnd
    have hni : kv.1 ∉ acc := by
      intro hmem
      rcases List.nodup_append.mp hnd with ⟨_, _, hdisj⟩
      exact hdisj hmem (by simp)
    have hstep : addKeys acc (kv :: rest) = addKeys (acc ++ [kv.1]) rest := by
      simp [addKeys, List.foldl_cons, hni]
    rw [hstep, ih (acc ++ [kv.1]) (by simpa using hnd)]
    simp

theorem addKeys_subset :
    ∀ (d : List (String × PyVal)) (acc : List String),
      (∀ k ∈ d.map Prod.fst, k ∈ acc) → addKeys acc d = acc := by
  intro d
  induction d with
  | nil => intro acc _; rfl
  | cons kv rest ih =>
    intro acc h
    have hmem : kv.1 ∈ acc := h kv.1 (by simp)
    have hstep : addKeys acc (kv :: rest) = addKeys acc rest := by
      simp [addKeys, List.foldl_cons, hmem]
    rw [hstep, ih acc (fun k hk => h k (by simp [hk]))]

theorem foldl_addKeys_fixed (K : List String) :
    ∀ rest : List (List (String × PyVal)),
      (∀ d ∈ rest, d.map Prod.fst = K) → rest.foldl addKeys K = K := by
  intro rest
  induction rest with
  | nil => intro _; rfl
  | cons d ds ih =>
    intro h
    rw [List.foldl_cons, addKeys_subset d K (fun k hk => (h d (by simp)) ▸ hk)]
    exact ih (fun x hx => h x (by simp [hx]))

theorem unionKeys_uniform (K : List String) :
    ∀ ds : List (List (String × PyVal)), ds ≠ [] → K.Nodup →
      (∀ d ∈ ds, d.map Prod.fst = K) → unionKeys ds = K := by
  intro ds hne hnd hall
  cases ds with
  | nil => exact absurd rfl hne
  | cons d0 rest =>
    have h0 : d0.map Prod.fst = K := hall d0 (by simp)
    have hstart : addKeys [] d0 = K := by
      rw [addKeys_of_nodup d0 [] (by simpa [h0] using hnd)]
      simpa using h0
    have hu : unionKeys (d0 :: rest) = rest.foldl addKeys K := by
      simp [unionKeys, List.foldl_cons, hstart]
    rw [hu]
    exact foldl_addKeys_fixed K rest (fun x hx => hall x (by simp [hx]))

theorem colIndex?_getD (c : String) :
    ∀ (l : List String) (i : Nat), colIndex? c l = some i → l.getD i "" = c := by
  intro l
  induction l with
  | nil => intro i h; cases h
  | cons x xs ih =>
    intro i h
    by_cases hx : x = c
    · simp only [colIndex?, if_pos hx] at h
      cases h
      exact hx
    · simp only [colIndex?, if_neg hx] at h
      cases hr : colIndex? c xs with
      | none => rw [hr] at h; cases h
      | some j =>
        rw [hr] at h
        simp only [Option.map] at h
        cases h
        simpa using ih j hr

theorem mem_colIndex? (c : String) :
    ∀ l : List String, c ∈ l → ∃ i, colIndex? c l = some i := by
  intro l
  induction l with
  | nil => intro h; cases h
  | cons x xs ih =>
    intro h
    by_cases hx : x = c
    · exact ⟨0, by simp [colIndex?, hx]⟩
    · have hm : c ∈ xs := by
        rcases List.mem_cons.mp h with he | hm
        · exact absurd he.symm hx
        · exact hm
      rcases ih hm with ⟨j, hj⟩
      exact ⟨j + 1, by simp [colIndex?, hx, hj]⟩

theorem colIndex?_map_ren :
    ∀ l : List String, "track_id" ∉ l →
      colIndex? "track_id" (l.map (fun c => if c = "id" then "track_id" else c)) =
        colIndex? "id" l := by
  intro l
  induction l with
  | nil => intro _; rfl
  | cons c cs ih =>
    intro h
    have hct : ¬(c = "track_id") := fun he => h (he ▸ List.mem_cons_self _ _)
    by_cases hc : c = "id"
    · subst hc
      simp [colIndex?]
    · have hren : (if c = "id" then "track_id" else c) = c := if_neg hc
      simp only [List.map_cons, hren, colIndex?, if_neg hct, if_neg hc]
      rw [ih (fun hm => h (List.mem_cons_of_mem _ hm))]

theorem featureDictOK_some (lookup : PyVal → Option (List (String × PyVal)))
    (ks : List String) (v : PyVal) (d : List (String × PyVal))
    (h : featureDictOK lookup ks v = true) (hd : lookup v = some d) :
    d.map Prod.fst = ks ∧ dictGet d "id" = v := by
  unfold featureDictOK at h
  rw [hd] at h
  simp only [Bool.and_eq_true, beq_iff_eq] at h
  exact h

theorem featFilter_nil (lookup : PyVal → Option (List (String × PyVal)))
    (ks : List String) (t : PyVal) :
    ∀ ids : List PyVal,
      (∀ v ∈ ids, featureDictOK lookup ks v = true) → (∀ v ∈ ids, v ≠ t) →
      (ids.filterMap lookup).filter (fun d => dictGet d "id" == t) = [] := by
  intro ids
  induction ids with
  | nil => intro _ _; rfl
  | cons v vs ih =>
    intro hok hne
    have hrest := ih (fun u hu => hok u (List.mem_cons_of_mem _ hu))
      (fun u hu => hne u (List.mem_cons_of_mem _ hu))
    cases hv : lookup v with
    | none => simpa [List.filterMap_cons, hv] using hrest
    | some d =>
      obtain ⟨_, hid⟩ := featureDictOK_some lookup ks v d (hok v (List.mem_cons_self _ _)) hv
      have hfd : (dictGet d "id" == t) = false := by
        rw [hid]
        exact beq_eq_false_iff_ne.mpr (hne v (List.mem_cons_self _ _))
      simpa [List.filterMap_cons, hv, List.filter_cons, hfd] using hrest

theorem featFilter_mem (lookup : PyVal → Option (List (String × PyVal)))
    (ks : List String) :
    ∀ (ids : List PyVal) (t : PyVal),
      (∀ v ∈ ids, featureDictOK lookup ks v = true) → ids.Nodup → t ∈ ids →
      (ids.filterMap lookup).filter (fun d => dictGet d "id" == t) =
        (match lookup t with | some d => [d] | Option.none => []) := by
  intro ids
  induction ids with
  | nil => intro t _ _ ht; cases ht
  | cons v vs ih =>
    intro t hok hnd ht
    rcases List.mem_cons.mp ht with he | hm
    · subst he
      have hnin : t ∉ vs := (List.nodup_cons.mp hnd).1
      have hnil := featFilter_nil lookup ks t vs
        (fun u hu => hok u (List.mem_cons_of_mem _ hu))
        (fun u hu he2 => hnin (he2 ▸ hu))
      cases hv : lookup t with
      | none => simpa [List.filterMap_cons, hv] using hnil
      | some d =>
        obtain ⟨_, hid⟩ := featureDictOK_some lookup ks t d (hok t (List.mem_cons_self _ _)) hv
        have hfd : (dictGet d "id" == t) = true := by
          rw [hid]
          exact beq_self_eq_true t
        simpa [List.filterMap_cons, hv, List.filter_cons, hfd] using hnil
    · have hvt : v ≠ t := fun he => (List.nodup_cons.mp hnd).1 (he ▸ hm)
      have hrest := ih t (fun u hu => hok u (List.mem_cons_of_mem _ hu))
        (List.nodup_cons.mp hnd).2 hm
      cases hv : lookup v with
      | none => simpa [List.filterMap_cons, hv] using hrest
      | some d =>
        obtain ⟨_, hid⟩ := featureDictOK_some lookup ks v d (hok v (List.mem_cons_self _ _)) hv
        have hfd : (dictGet d "id" == t) = false := by
          rw [hid]
          exact beq_eq_false_iff_ne.mpr hvt
        simpa [List.filterMap_cons, hv, List.filter_cons, hfd] using hrest

theorem mergeRows_map (li ri : Nat) (rrows : List (List PyVal)) (w : Nat)
    (g : List PyVal → List PyVal) :
    ∀ L : List (List PyVal),
      (∀ lr ∈ L, mergeRowsOne li ri rrows w lr = [g lr]) →
      mergeRows li ri rrows w L = L.map g := by
  intro L
  induction L with
  | nil => intro _; rfl
  | cons lr rest ih =>
    intro h
    rw [mergeRows, h lr (List.mem_cons_self _ _), ih (fun x hx => h x (List.mem_cons_of_mem _ hx))]
    rfl

theorem append_two_ne_index (c : String) (u v : Char) (hu : u ≠ 'e') :
    c ++ String.mk [u, v] ≠ "index" := by
  intro h
  have e0 : ("index" : String).data = ['i', 'n', 'd', 'e', 'x'] := rfl
  have hd : c.data ++ [u, v] = ['i', 'n', 'd', 'e', 'x'] := by
    have h2 := congrArg String.data h
    rw [String.data_append, e0] at h2
    exact h2
  have e2 : (['i', 'n', 'd', 'e', 'x'] : List Char).reverse = ['x', 'e', 'd', 'n', 'i'] := by decide
  have hrev : v :: u :: c.data.reverse = ['x', 'e', 'd', 'n', 'i'] := by
    have h3 := congrArg List.reverse hd
    rw [List.reverse_append, e2] at h3
    simpa using h3
  have hue : u = 'e' := List.head_eq_of_cons_eq (List.tail_eq_of_cons_eq hrev)
  exact hu hue

theorem append_suffix_x_ne_index (c : String) : c ++ "_x" ≠ "index" := by
  have he : ("_x" : String) = String.mk ['_', 'x'] := by decide
  rw [he]
  exact append_two_ne_index c '_' 'x' (by decide)

theorem append_suffix_y_ne_index (c : String) : c ++ "_y" ≠ "index" := by
  have he : ("_y" : String) = String.mk ['_', 'y'] := by decide
  rw [he]
  exact append_two_ne_index c '_' 'y' (by decide)

theorem contains_true_of_mem (l : List String) (c : String) (h : c ∈ l) :
    l.contains c = true :=
  List.elem_eq_true_of_mem h

theorem index_not_mem_left (cols rcols : List String) (h : "index" ∉ cols) :
    "index" ∉ cols.map (fun c => if c ≠ "track_id" ∧ rcols.contains c then c ++ "_x" else c) := by
  intro hm
  rcases List.mem_map.mp hm with ⟨c, hc, he⟩
  by_cases hcond : (c ≠ "track_id" ∧ rcols.contains c)
  · rw [if_pos hcond] at he
    exact append_suffix_x_ne_index c he
  · rw [if_neg hcond] at he
    exact h (he ▸ hc)

theorem index_not_mem_right (ks' lcols : List String) (ri : Nat) (hks : "index" ∉ ks') :
    "index" ∉ ((ks'.map (fun c => if c = "id" then "track_id" else c)).eraseIdx ri).map
      (fun c => if c ≠ "track_id" ∧ lcols.contains c then c ++ "_y" else c) := by
  intro hm
  rcases List.mem_map.mp hm with ⟨c, hc, he⟩
  have hc2 : c ∈ ks'.map (fun c => if c = "id" then "track_id" else c) :=
    (List.eraseIdx_sublist _ ri).subset hc
  rcases List.mem_map.mp hc2 with ⟨c0, hc0, he0⟩
  by_cases hcond : (c ≠ "track_id" ∧ lcols.contains c)
  · rw [if_pos hcond] at he
    exact append_suffix_y_ne_index c he
  · rw [if_neg hcond] at he
    subst he
    by_cases hc0id : c0 = "id"
    · rw [if_pos hc0id] at he0
      exact absurd he0 (by decide)
    · rw [if_neg hc0id] at he0
      exact hks (he0 ▸ hc0)

/-- Claim C1 counterexample: the claim says the output row count equals
the input row count for every input table and every lookup outcome.  On a
table holding the same track id twice (which deduplication leaves behind
when one track appears under two different moods), each of the two left
rows matches both feature rows in the left merge, so 2 input rows become
4 output rows. -/
theorem c1_rowcount_counterexample :
    Except.map (fun d => d.rows.length) (generate_features exLookupT exDupDf "track_id") =
      Except.ok 4 ∧
    exDupDf.rows.length = 2 := by decide

/-- Claim C1 (corrected): for every input table whose track ids are
pairwise distinct, and any lookup outcome in which at least one lookup
succeeds and every returned feature dict is well-shaped (its keys are a
fixed duplicate-free key list `ks` holding `id` and the three URI fields,
its `id` field echoes the queried identifier, and neither `track_id` nor
`index` occurs among the feature keys nor `index` among the table's
columns), `generate_features` succeeds, the output has exactly as many
rows as the input, and a row whose lookup returned no result is kept,
padded with null values in every feature column, rather than dropped. -/
theorem c1_feature_augmentation_amended
    (lookup : PyVal → Option (List (String × PyVal))) (df : DataFrame)
    (ids : List PyVal) (ks : List String)
    (hids : df.getCol "track_id" = Except.ok ids)
    (hnd : ids.Nodup)
    (hok : ∀ v ∈ ids, featureDictOK lookup ks v = true)
    (hsome : ∃ v ∈ ids, (lookup v).isSome = true)
    (hksnd : ks.Nodup)
    (hidk : "id" ∈ ks) (huri : "uri" ∈ ks) (hhref : "track_href" ∈ ks)
    (hurl : "analysis_url" ∈ ks)
    (hti : "track_id" ∉ ks) (hixk : "index" ∉ ks) (hixl : "index" ∉ df.cols) :
    ∃ out, generate_features lookup df "track_id" = Except.ok out ∧
      out.rows.length = df.rows.length ∧
      ∀ i, i < df.rows.length → lookup (ids.getD i PyVal.none) = Option.none →
        out.rows.getD i [] = df.rows.getD i [] ++
          List.replicate
            ((ks.filter (fun c => !(["uri", "track_href", "analysis_url"].contains c))).length - 1)
            PyVal.none := by
  obtain ⟨li, hci, hidsmap⟩ := getCol_ok_structure df "track_id" ids hids
  set ks' := ks.filter (fun c => !(["uri", "track_href", "analysis_url"].contains c))
    with hks'def
  have hkeys : ∀ d ∈ ids.filterMap lookup, d.map Prod.fst = ks := by
    intro d hd
    rcases List.mem_filterMap.mp hd with ⟨v, hv, hlv⟩
    exact (featureDictOK_some lookup ks v d (hok v hv) hlv).1
  have hne : ids.filterMap lookup ≠ [] := by
    rcases hsome with ⟨v, hv, hs⟩
    rcases Option.isSome_iff_exists.mp hs with ⟨d, hd⟩
    exact List.ne_nil_of_mem (List.mem_filterMap.mpr ⟨v, hv, hd⟩)
  have hfl : (ids.filterMap lookup).filter (fun d => !d.isEmpty) = ids.filterMap lookup := by
    apply List.filter_eq_self.mpr
    intro d hd
    have hk := hkeys d hd
    cases d with
    | nil =>
      have hcopy := hidk
      rw [← hk] at hcopy
      cases hcopy
    | cons kv rest => rfl
  have huk : unionKeys (ids.filterMap lookup) = ks :=
    unionKeys_uniform ks _ hne hksnd hkeys
  have hdfd : dataFrameOfDicts (ids.filterMap lookup) =
      ⟨ks, (ids.filterMap lookup).map (fun d => ks.map (dictGet d))⟩ := by
    simp only [dataFrameOfDicts]
    rw [huk]
  have hfind : (["uri", "track_href", "analysis_url"].find? (fun c => !(ks.contains c))) =
      Option.none := by
    rw [List.find?_eq_none]
    intro c hc
    simp only [List.mem_cons, List.not_mem_nil, or_false] at hc
    rcases hc with h | h | h <;> subst h <;> simp [huri, hhref, hurl]
  have hdropOk : (⟨ks, (ids.filterMap lookup).map (fun d => ks.map (dictGet d))⟩ :
      DataFrame).dropCols ["uri", "track_href", "analysis_url"] =
      Except.ok ⟨ks', (ids.filterMap lookup).map (fun d => ks'.map (dictGet d))⟩ := by
    unfold DataFrame.dropCols
    rw [hfind]
    dsimp only
    refine congrArg Except.ok ?_
    rw [DataFrame.mk.injEq]
    refine ⟨rfl, ?_⟩
    rw [List.map_map]
    apply List.map_congr_left
    intro d _
    simp only [Function.comp]
    exact zip_map_filter_snd (dictGet d) (fun c => !(["uri", "track_href", "analysis_url"].contains c)) ks
  have hks'nd : ks'.Nodup := hksnd.filter _
  have hidks' : "id" ∈ ks' := List.mem_filter.mpr ⟨hidk, by decide⟩
  have hti' : "track_id" ∉ ks' := fun hm => hti (List.mem_of_mem_filter hm)
  have hix' : "index" ∉ ks' := fun hm => hixk (List.mem_of_mem_filter hm)
  obtain ⟨ri, hri⟩ := mem_colIndex? "id" ks' hidks'
  have hciR : colIndex? "track_id" (ks'.map (fun c => if c = "id" then "track_id" else c)) =
      some ri := by
    rw [colIndex?_map_ren ks' hti']
    exact hri
  have hrib : ri < ks'.length := colIndex?_lt_length _ _ _ hri
  have hriv : ks'.getD ri "" = "id" := colIndex?_getD _ _ _ hri
  have hkeyrow : ∀ d : List (String × PyVal),
      ((ks'.map (dictGet d)).getD ri PyVal.none) = dictGet d "id" := by
    intro d
    rw [getD_map_lt (dictGet d) ks' ri "" PyVal.none hrib, hriv]
  have hone : ∀ lr ∈ df.rows,
      mergeRowsOne li ri ((ids.filterMap lookup).map (fun d => ks'.map (dictGet d)))
        ks'.length lr = [mergedRowFn lookup ks' ri li lr] := by
    intro lr hlr
    have htmem : lr.getD li PyVal.none ∈ ids := by
      rw [hidsmap]
      exact List.mem_map_of_mem _ hlr
    unfold mergeRowsOne
    rw [List.filter_map]
    have hfc : ((ids.filterMap lookup).filter
        ((fun rr => rr.getD ri PyVal.none == lr.getD li PyVal.none) ∘
          (fun d => ks'.map (dictGet d))))
        = (ids.filterMap lookup).filter (fun d => dictGet d "id" == lr.getD li PyVal.none) := by
      apply List.filter_congr
      intro d _
      simp only [Function.comp]
      rw [hkeyrow d]
    rw [hfc, featFilter_mem lookup ks ids (lr.getD li PyVal.none) hok hnd htmem]
    cases hl : lookup (lr.getD li PyVal.none) with
    | none =>
      unfold mergedRowFn
      rw [hl]
      rfl
    | some d =>
      unfold mergedRowFn
      rw [hl]
      rfl
  have hmerge : DataFrame.merge df
      ⟨ks'.map (fun c => if c = "id" then "track_id" else c),
        (ids.filterMap lookup).map (fun d => ks'.map (dictGet d))⟩ "track_id" =
      Except.ok ⟨df.cols.map (fun c =>
          if c ≠ "track_id" ∧
            (ks'.map (fun c => if c = "id" then "track_id" else c)).contains c
          then c ++ "_x" else c) ++
        ((ks'.map (fun c => if c = "id" then "track_id" else c)).eraseIdx ri).map
          (fun c => if c ≠ "track_id" ∧ df.cols.contains c then c ++ "_y" else c),
        df.rows.map (mergedRowFn lookup ks' ri li)⟩ := by
    unfold DataFrame.merge
    rw [hci, hciR]
    dsimp only
    congr 2
    rw [List.length_map]
    exact mergeRows_map li ri _ ks'.length _ df.rows hone
  have hmix : "index" ∉ (df.cols.map (fun c =>
      if c ≠ "track_id" ∧
        (ks'.map (fun c => if c = "id" then "track_id" else c)).contains c
      then c ++ "_x" else c) ++
      ((ks'.map (fun c => if c = "id" then "track_id" else c)).eraseIdx ri).map
        (fun c => if c ≠ "track_id" ∧ df.cols.contains c then c ++ "_y" else c)) := by
    intro hm
    rcases List.mem_append.mp hm with h1 | h2
    · exact index_not_mem_left df.cols _ hixl h1
    · exact index_not_mem_right ks' df.cols ri hix' h2
  have hdropNo : dropColNoerr ⟨df.cols.map (fun c =>
      if c ≠ "track_id" ∧
        (ks'.map (fun c => if c = "id" then "track_id" else c)).contains c
      then c ++ "_x" else c) ++
      ((ks'.map (fun c => if c = "id" then "track_id" else c)).eraseIdx ri).map
        (fun c => if c ≠ "track_id" ∧ df.cols.contains c then c ++ "_y" else c),
      df.rows.map (mergedRowFn lookup ks' ri li)⟩ "index" =
      ⟨df.cols.map (fun c =>
        if c ≠ "track_id" ∧
          (ks'.map (fun c => if c = "id" then "track_id" else c)).contains c
        then c ++ "_x" else c) ++
        ((ks'.map (fun c => if c = "id" then "track_id" else c)).eraseIdx ri).map
          (fun c => if c ≠ "track_id" ∧ df.cols.contains c then c ++ "_y" else c),
        df.rows.map (mergedRowFn lookup ks' ri li)⟩ := by
    unfold dropColNoerr
    rw [if_neg]
    intro hc
    exact hmix (List.mem_of_elem_eq_true hc)
  have hgen : generate_features lookup df "track_id" =
      Except.ok ⟨df.cols.map (fun c =>
          if c ≠ "track_id" ∧
            (ks'.map (fun c => if c = "id" then "track_id" else c)).contains c
          then c ++ "_x" else c) ++
        ((ks'.map (fun c => if c = "id" then "track_id" else c)).eraseIdx ri).map
          (fun c => if c ≠ "track_id" ∧ df.cols.contains c then c ++ "_y" else c),
        df.rows.map (mergedRowFn lookup ks' ri li)⟩ := by
    unfold generate_features
    simp only [bind, Except.bind]
    rw [hids]
    dsimp only
    rw [hfl, hdfd, hdropOk]
    dsimp only [DataFrame.renameCol]
    rw [hmerge]
    dsimp only
    rw [hdropNo]
    rfl
  refine ⟨_, hgen, by simp, ?_⟩
  intro i hi hfail
  dsimp only
  rw [getD_map_lt (mergedRowFn lookup ks' ri li) df.rows i [] [] hi]
  have hsel : (df.rows.getD i []).getD li PyVal.none = ids.getD i PyVal.none := by
    rw [hidsmap, getD_map_lt (fun r => r.getD li PyVal.none) df.rows i [] PyVal.none hi]
  unfold mergedRowFn
  rw [hsel, hfail]

/-- Witness for C1: two distinct track ids where only the first lookup
succeeds; the amended claim's hypotheses all hold and its conclusions
follow at this input. -/
theorem c1_feature_augmentation_witness :
    ∃ out, generate_features exLookupA exDistinctDf "track_id" = Except.ok out ∧
      out.rows.length = exDistinctDf.rows.length ∧
      ∀ i, i < exDistinctDf.rows.length →
        exLookupA (([PyVal.str "a", PyVal.str "b"] : List PyVal).getD i PyVal.none) =
          Option.none →
        out.rows.getD i [] = exDistinctDf.rows.getD i [] ++
          List.replicate
            ((exFeatKeys.filter (fun c =>
              !(["uri", "track_href", "analysis_url"].contains c))).length - 1)
            PyVal.none :=
  c1_feature_augmentation_amended exLookupA exDistinctDf
    [PyVal.str "a", PyVal.str "b"] exFeatKeys
    (by decide) (by decide) (by decide) (by decide) (by decide) (by decide)
    (by decide) (by decide) (by decide) (by decide) (by decide) (by decide)
